import Mathlib

/-!
Verification development for the comet command shell repository.

The Lean definitions below are a shallow embedding of the Python sources:

* `src/main.py` — the argument line parser (`parse_arguments`), the input
  submission path (`on_input_submitted`), the completion handler
  (`on_input_changed`), the command registry (`API_METHODS`) and the
  dispatch routine (`execute_command`);
* `src/json_formatter.py` — the flat text renderer
  (`format_json_response` / `format_dict` / `format_list` / `format_value`);
* `src/advanced_formatter.py` — the tree style value renderer
  (`format_simple_value`).

Python strings are modelled as Lean `String`; all inputs relevant to the
theorems are ASCII, where the modelled primitives (`lower`, `strip`,
`split`, `startswith`, slicing, `json.dumps`) agree with Python exactly.
Python dictionaries are modelled as ordered association lists with
Python assignment semantics: assigning to an existing key replaces the
value in place, otherwise the pair is appended (insertion order).
-/

namespace Comet

/-- Model of Python `str.lower()` restricted to ASCII case folding
(`Char.toLower` maps the ASCII uppercase letters to lowercase and is the
identity elsewhere in the ASCII range, exactly like Python on ASCII). -/
def pyLower (s : String) : String :=
  String.mk (s.data.map Char.toLower)

/-- Model of Python `str.strip()` with no argument: remove leading and
trailing whitespace characters. -/
def pyStrip (s : String) : String :=
  String.mk (((s.data.dropWhile Char.isWhitespace).reverse.dropWhile Char.isWhitespace).reverse)

/-- Character-list prefix test, split on the pattern first so that it
reduces even when the tail of the scanned list is not known. -/
def isPre : List Char → List Char → Bool
  | [], _ => true
  | a :: as, l =>
    match l with
    | [] => false
    | b :: bs => a == b && isPre as bs

/-- Model of Python `str.startswith(pre)`. -/
def pyStartsWith (s pre : String) : Bool :=
  isPre pre.data s.data

/-- Model of the Python slice `s[n:]` (character based). -/
def pyDropChars (n : Nat) (s : String) : String :=
  String.mk (s.data.drop n)

/-- Model of the Python slice `s[:n]` (character based). -/
def pyTake (n : Nat) (s : String) : String :=
  String.mk (s.data.take n)

/-- Helper for `pyWords`: split a character list on whitespace runs. -/
def wordsAux : List Char → List Char → List String
  | [], cur => if cur.isEmpty then [] else [String.mk cur.reverse]
  | c :: rest, cur =>
    if c.isWhitespace then
      if cur.isEmpty then wordsAux rest [] else String.mk cur.reverse :: wordsAux rest []
    else wordsAux rest (c :: cur)

/-- Model of Python `str.split()` with no argument: split on runs of
whitespace, discarding empty pieces. -/
def pyWords (s : String) : List String :=
  wordsAux s.data []

/-- Helper for `strContains`: does `nd` occur as a contiguous block
inside the second list? -/
def infixAux (nd : List Char) : List Char → Bool
  | [] => nd.isEmpty
  | c :: rest => isPre nd (c :: rest) || infixAux nd rest

/-- True when `needle` occurs as a contiguous substring of `hay`
(model of the Python `needle in hay` test on strings). -/
def strContains (hay needle : String) : Bool :=
  infixAux needle.data hay.data

/-- A value stored by `parse_arguments`: Python keeps either the raw
string token or the boolean `True` for a bare flag. -/
inductive PVal where
  | str (s : String)
  | flag
deriving DecidableEq, Repr

/-- Python dictionary assignment `d[k] = v` on an ordered association
list: replace in place when the key is present, append otherwise. -/
def dictSet {α : Type} (d : List (String × α)) (k : String) (v : α) :
    List (String × α) :=
  if d.any (fun q => q.1 == k) then
    d.map (fun q => if q.1 == k then (k, v) else q)
  else
    d ++ [(k, v)]

/-- Python dictionary read `d.get(k)`: first (and by construction only)
entry with the key. -/
def pyLookup {α : Type} (k : String) : List (String × α) → Option α
  | [] => none
  | q :: rest => if q.1 == k then some q.2 else pyLookup k rest

/-- Loop body of `parse_arguments` (src/main.py lines 414-433):
the cursor consumes `--key value` pairs two tokens at a time, records a
bare `--key` (last token, or followed by another `--` token) as the
boolean flag `True`, and skips non-flag tokens. -/
def parseArgsGo : List String → List (String × PVal) → List (String × PVal)
  | [], acc => acc
  | a :: rest, acc =>
    if pyStartsWith a "--" then
      match rest with
      | b :: rest2 =>
        if pyStartsWith b "--" then
          parseArgsGo (b :: rest2) (dictSet acc (pyDropChars 2 a) PVal.flag)
        else
          parseArgsGo rest2 (dictSet acc (pyDropChars 2 a) (PVal.str b))
      | [] => parseArgsGo [] (dictSet acc (pyDropChars 2 a) PVal.flag)
    else
      parseArgsGo rest acc

/-- The function `parse_arguments` of src/main.py. -/
def parse_arguments (args : List String) : List (String × PVal) :=
  parseArgsGo args []

/-- Line level parsing as performed by `on_input_submitted`
(src/main.py lines 587-592): `parts = text.split()`, the first token is
the command and the rest are handed to `parse_arguments`. An empty line
produces no command. -/
def parse_line (text : String) : Option String × List (String × PVal) :=
  match pyWords (pyStrip text) with
  | [] => (none, [])
  | c :: rest => (some c, parse_arguments rest)

/-- The declared type of a command parameter (the `type` field of the
`API_METHODS` entries in src/main.py). -/
inductive ParamType where
  | str
  | int
  | bool
  | list
deriving DecidableEq, Repr

/-- One parameter descriptor of an `API_METHODS` entry: `type`,
`required` and `post` (absent `post` keys default to `false`). -/
structure ParamSpec where
  type : ParamType
  required : Bool
  post : Bool
deriving DecidableEq, Repr

/-- The static command registry `API_METHODS` of src/main.py
(lines 74-399), in source insertion order. Only the name and the ordered
parameter descriptors are embedded; the `description`, `example` and
`category` fields are plain display strings that no theorem below
depends on, so they are omitted from the embedding. -/
def api_methods : List (String × List (String × ParamSpec)) := [
  ("getHandshake", [("token", ⟨.str, true, false⟩)]),
  ("authorizeHandshake", []),
  ("terminateHandshake", [("token", ⟨.str, true, false⟩)]),
  ("getAchievements", []),
  ("redeemAchievements", [("value", ⟨.str, true, true⟩)]),
  ("createBuild", [("tag", ⟨.str, false, false⟩), ("private", ⟨.str, false, false⟩)]),
  ("deleteBuild", [("tag", ⟨.str, false, false⟩)]),
  ("upload", [("expire", ⟨.int, false, false⟩), ("no_scramble", ⟨.bool, false, false⟩)]),
  ("setUpload", [("old_url", ⟨.str, true, false⟩), ("new_url", ⟨.str, true, false⟩)]),
  ("setLanguage", [("lang", ⟨.str, false, false⟩)]),
  ("heyConstelia", [("message", ⟨.str, true, false⟩)]),
  ("teachConstelia", [("data", ⟨.str, true, true⟩), ("info", ⟨.bool, false, false⟩),
    ("wipe", ⟨.bool, false, false⟩)]),
  ("getFC2TProjects", []),
  ("getFC2TProject", [("id", ⟨.int, true, false⟩)]),
  ("toggleProjectStatus", [("id", ⟨.int, true, false⟩)]),
  ("setMemberProjects", [("projects", ⟨.list, true, false⟩)]),
  ("sendCommand", [("command", ⟨.str, true, false⟩)]),
  ("getBuilds", []),
  ("deleteMinecraftWhitelist", [("owner", ⟨.str, true, false⟩)]),
  ("respecPerks", []),
  ("listPerks", []),
  ("buyPerk", [("id", ⟨.int, true, false⟩)]),
  ("changeVenus", [("status", ⟨.bool, false, false⟩), ("request", ⟨.str, false, false⟩),
    ("withdraw", ⟨.bool, false, false⟩)]),
  ("rollLoot", [("sim", ⟨.bool, false, false⟩)]),
  ("resetConfiguration", []),
  ("hideSteamAccount", [("name", ⟨.str, true, false⟩)]),
  ("showSteamAccount", [("name", ⟨.str, true, false⟩)]),
  ("setKeys", [("link", ⟨.int, false, false⟩), ("stop", ⟨.int, false, false⟩)]),
  ("getSolution", [("software", ⟨.str, true, false⟩), ("os", ⟨.str, false, false⟩)]),
  ("setProtection", [("protection", ⟨.int, true, false⟩)]),
  ("setMemberScripts", [("scripts", ⟨.list, true, false⟩)]),
  ("getDivinityChart", [("top5", ⟨.bool, false, false⟩)]),
  ("getMinecraftWhitelist", []),
  ("addMinecraftWhitelist", [("name", ⟨.str, true, false⟩), ("owner", ⟨.str, true, false⟩),
    ("friend", ⟨.bool, false, false⟩)]),
  ("getMemberAsBuddy", [("name", ⟨.str, true, false⟩)]),
  ("toggleScriptStatus", [("id", ⟨.int, true, false⟩)]),
  ("getSoftware", [("name", ⟨.str, true, false⟩), ("scripts", ⟨.bool, false, false⟩),
    ("checksum", ⟨.bool, false, false⟩)]),
  ("getAllSoftware", []),
  ("getForumPosts", [("count", ⟨.int, true, false⟩)]),
  ("getConfiguration", []),
  ("setConfiguration", [("value", ⟨.str, true, true⟩)]),
  ("getScript", [("id", ⟨.int, true, false⟩), ("source", ⟨.bool, false, false⟩),
    ("needs_sync", ⟨.bool, false, false⟩), ("needs_update", ⟨.bool, false, false⟩)]),
  ("getAllScripts", []),
  ("updateScript", [("script", ⟨.str, true, true⟩), ("content", ⟨.str, true, true⟩),
    ("notes", ⟨.str, true, true⟩), ("categories", ⟨.list, false, true⟩)]),
  ("getMember", [("bans", ⟨.bool, false, false⟩), ("history", ⟨.bool, false, false⟩),
    ("scripts", ⟨.bool, false, false⟩), ("simple", ⟨.bool, false, false⟩),
    ("private", ⟨.bool, false, false⟩), ("xp", ⟨.bool, false, false⟩),
    ("rolls", ⟨.bool, false, false⟩), ("fc2t", ⟨.bool, false, false⟩),
    ("hashes", ⟨.bool, false, false⟩), ("uploads", ⟨.bool, false, false⟩),
    ("bonks", ⟨.bool, false, false⟩), ("achievements", ⟨.bool, false, false⟩)])]

/-- The registry as it exists in the running process: the `__main__`
block of src/main.py (lines 753-756) appends an optional boolean
`beautify` parameter to every command exactly once at startup. -/
def api_methods_aug : List (String × List (String × ParamSpec)) :=
  api_methods.map (fun e => (e.1, e.2 ++ [("beautify", ⟨.bool, false, false⟩)]))

/-- The registered command names, `API_METHODS.keys()`, in insertion
order. -/
def commandNames : List String :=
  api_methods.map Prod.fst

/-- The completion handler `on_input_changed` of src/main.py
(lines 543-556): lowercase the stripped input text, then collect every
command whose lowercased name starts with that whole text, in registry
order; an empty text yields no suggestions. -/
def on_input_changed (value : String) : List String :=
  let text := pyLower (pyStrip value)
  if text = "" then []
  else commandNames.filter (fun cmd => pyStartsWith (pyLower cmd) text)

/-- Hexadecimal digit character, lowercase, as used by the Python json
module for `\uXXXX` escapes. -/
def hexDigit (n : Nat) : Char :=
  if n < 10 then Char.ofNat (48 + n) else Char.ofNat (87 + n)

/-- Four lowercase hexadecimal digits of `n % 65536`. -/
def hex4 (n : Nat) : String :=
  String.mk [hexDigit (n / 4096 % 16), hexDigit (n / 256 % 16),
    hexDigit (n / 16 % 16), hexDigit (n % 16)]

/-- Escape of one character as produced by Python `json.dumps` with its
default `ensure_ascii=True`: quote and backslash get two-character
escapes, the common control characters get their short names, every
other character outside the printable ASCII range 0x20-0x7e becomes a
`\uXXXX` escape (a surrogate pair beyond the basic plane), and printable
ASCII passes through. -/
def jsonEscapeChar (c : Char) : String :=
  if c = '"' then "\\\""
  else if c = '\\' then "\\\\"
  else if c = '\n' then "\\n"
  else if c = '\r' then "\\r"
  else if c = '\t' then "\\t"
  else if c.toNat = 8 then "\\b"
  else if c.toNat = 12 then "\\f"
  else if c.toNat < 32 || 126 < c.toNat then
    if c.toNat < 65536 then "\\u" ++ hex4 c.toNat
    else "\\u" ++ hex4 (55296 + (c.toNat - 65536) / 1024) ++
         "\\u" ++ hex4 (56320 + (c.toNat - 65536) % 1024)
  else String.singleton c

/-- Model of Python `json.dumps` on a string value: the escaped
characters wrapped in double quotes. -/
def pyJsonDumpsStr (s : String) : String :=
  "\"" ++ String.join (s.data.map jsonEscapeChar) ++ "\""

/-- The error heuristic shared by both renderers: a case-insensitive
substring match for `error` or `invalid` anywhere in the string
(`"error" in value.lower() or "invalid" in value.lower()`). -/
def errorLike (s : String) : Bool :=
  strContains (pyLower s) "error" || strContains (pyLower s) "invalid"

/-- JSON-shaped values as handled by the renderers. Python numbers are
modelled by `Int`: no claim under examination involves floating point,
and the renderers treat `int` and `float` identically (plain `str`
interpolation). -/
inductive JVal where
  | null
  | bool (b : Bool)
  | int (n : Int)
  | str (s : String)
  | arr (items : List JVal)
  | obj (fields : List (String × JVal))
deriving Repr

/-- Model of Python `json.dumps` on a whole JSON value with the default
separators `", "` and `": "`. Used by the renderers for values that are
not handled by a dedicated branch. -/
def dumpsVal : JVal → String
  | .null => "null"
  | .bool b => if b then "true" else "false"
  | .int n => toString n
  | .str s => pyJsonDumpsStr s
  | .arr items =>
    "[" ++ String.intercalate ", " (items.attach.map (fun x => dumpsVal x.1)) ++ "]"
  | .obj fields =>
    "\x7b" ++ String.intercalate ", "
      (fields.attach.map (fun x => pyJsonDumpsStr x.1.1 ++ ": " ++ dumpsVal x.1.2)) ++ "\x7d"
termination_by v => sizeOf v
decreasing_by
  · have := List.sizeOf_lt_of_mem x.2
    simp only [JVal.arr.sizeOf_spec]
    omega
  · obtain ⟨⟨k, w⟩, hm⟩ := x
    have h1 := List.sizeOf_lt_of_mem hm
    simp only [JVal.obj.sizeOf_spec, Prod.mk.sizeOf_spec] at *
    omega

/-- True when the value is neither a mapping nor a sequence
(`not isinstance(v, (dict, list))`). -/
def isScalar : JVal → Bool
  | .arr _ => false
  | .obj _ => false
  | _ => true

/-- True when the value is a string (`isinstance(item, str)`). -/
def isStrVal : JVal → Bool
  | .str _ => true
  | _ => false

/-- Python `str(item)` as used by the bulleted-list branch of
`format_list`. That branch is guarded by all items being strings, for
which `str` is the raw string; the container fallback is unreachable
there and is modelled loosely by the json serialization. -/
def pyStrOfItem : JVal → String
  | .str s => s
  | .null => "None"
  | .bool b => if b then "True" else "False"
  | .int n => toString n
  | v => dumpsVal v

/-- Helper for `pyChunks80`: cut a character list into blocks of
`n + 1` characters, the last block possibly shorter. -/
def chunksAux (n : Nat) : List Char → List (List Char)
  | [] => []
  | c :: cs => ((c :: cs).take (n + 1)) :: chunksAux n ((c :: cs).drop (n + 1))
termination_by l => l.length
decreasing_by
  simp only [List.drop_succ_cons, List.length_drop, List.length_cons]
  omega

/-- The hard-wrap of the flat renderer
(`[value[i:i+80] for i in range(0, len(value), 80)]`). -/
def pyChunks80 (s : String) : List String :=
  (chunksAux 79 s.data).map String.mk

/-- The function `format_value` of src/json_formatter.py (lines 75-93),
the flat renderer for one scalar. The `indent` parameter of the source
is never read by the body and is omitted. -/
def format_value : JVal → String
  | .null => "[italic bright_black]null[/italic bright_black]"
  | .bool b => "[bold yellow]" ++ (if b then "true" else "false") ++ "[/bold yellow]"
  | .int n => "[bold cyan]" ++ toString n ++ "[/bold cyan]"
  | .str s =>
    if errorLike s then "[red]" ++ pyJsonDumpsStr s ++ "[/red]"
    else if 80 < s.length then
      "[green]" ++ String.intercalate "\n" (pyChunks80 s) ++ "[/green]"
    else "[green]" ++ pyJsonDumpsStr s ++ "[/green]"
  | v => "[white]" ++ dumpsVal v ++ "[/white]"

/-- The function `format_simple_value` of src/advanced_formatter.py
(lines 42-59), the tree-style renderer for one scalar: the error
heuristic first, then truncation of strings longer than 100 characters
to their first 100 characters plus an ellipsis marker. -/
def format_simple_value : JVal → String
  | .null => "[italic bright_black]null[/italic bright_black]"
  | .bool b => "[bold yellow]" ++ (if b then "true" else "false") ++ "[/bold yellow]"
  | .int n => "[bold cyan]" ++ toString n ++ "[/bold cyan]"
  | .str s =>
    if errorLike s then "[red]" ++ pyJsonDumpsStr s ++ "[/red]"
    else if 100 < s.length then
      "[green]" ++ pyJsonDumpsStr (pyTake 100 s ++ "...") ++ "[/green]"
    else "[green]" ++ pyJsonDumpsStr s ++ "[/green]"
  | v => "[white]" ++ dumpsVal v ++ "[/white]"

/-- Python `"  " * n`, the indentation unit of the flat renderer. -/
def indentStr (n : Nat) : String :=
  String.join (List.replicate n "  ")

mutual

/-- The function `format_json_response` of src/json_formatter.py
(lines 5-12): dispatch on the shape of the value. The result is an
`Option` because the error-response branch of `format_dict` calls
`format_error_response`, a name that is defined nowhere in the module:
entering it raises `NameError` at run time, modelled as `none`. -/
def format_json_response (v : JVal) (ind : Nat) : Option String :=
  match v with
  | .obj fields => format_dict fields ind
  | .arr items => format_list items ind
  | x => some (format_value x)
termination_by sizeOf v
decreasing_by
  · simp only [JVal.obj.sizeOf_spec]; omega
  · simp only [JVal.arr.sizeOf_spec]; omega

/-- The function `format_dict` of src/json_formatter.py (lines 15-41).
The branch order follows the source: empty mapping, error response
(a key named `error` or `message` — this calls the undefined
`format_error_response`, modelled as `none`), inline line for at most
five all-scalar entries, multi-line block otherwise. -/
def format_dict (data : List (String × JVal)) (ind : Nat) : Option String :=
  if data.isEmpty then some "\x7b\x7d"
  else if (pyLookup "error" data).isSome || (pyLookup "message" data).isSome then none
  else if decide (data.length ≤ 5) && data.all (fun kv => isScalar kv.2) then
    some (indentStr ind ++ String.intercalate ", "
      (data.map (fun kv => "[bold blue]" ++ kv.1 ++ "[/bold blue]: " ++ format_value kv.2)))
  else
    (data.attach.mapM (fun x =>
        (format_json_response x.1.2 (ind + 1)).map
          (fun fv => indentStr (ind + 1) ++ "[bold blue]" ++ x.1.1 ++ "[/bold blue]: " ++ fv))).map
      (fun lines => String.intercalate "\n" (("\x7b" :: lines) ++ [indentStr ind ++ "\x7d"]))
termination_by sizeOf data
decreasing_by
  obtain ⟨⟨k, w⟩, hm⟩ := x
  have h1 := List.sizeOf_lt_of_mem hm
  simp only [Prod.mk.sizeOf_spec] at *
  omega

/-- The function `format_list` of src/json_formatter.py (lines 44-72):
empty sequence, bulleted list for more than three all-string items,
inline bracketed line for at most five all-scalar items, multi-line
block otherwise. The bullet text reproduces the literal characters of
the source file. -/
def format_list (data : List JVal) (ind : Nat) : Option String :=
  if data.isEmpty then some "[]"
  else if data.all isStrVal && decide (3 < data.length) then
    some (String.intercalate "\n"
      (("[bold underline]Items (" ++ toString data.length ++ " total):[/bold underline]") ::
        data.map (fun it =>
          indentStr ind ++ "[yellow]â€¢[/yellow] [green]" ++ pyStrOfItem it ++ "[/green]")))
  else if decide (data.length ≤ 5) && data.all isScalar then
    some ("[" ++ String.intercalate ", " (data.map format_value) ++ "]")
  else
    (data.attach.mapM (fun x =>
        (format_json_response x.1 (ind + 1)).map (fun fi => indentStr (ind + 1) ++ fi))).map
      (fun lines => String.intercalate "\n" (("[" :: lines) ++ [indentStr ind ++ "]"]))
termination_by sizeOf data
decreasing_by
  have h1 := List.sizeOf_lt_of_mem x.2
  omega

end

/-- Python exceptions relevant to `execute_command`: the two caught by
the list-coercion handler, plus the ones an `eval` call can raise
outside that set. -/
inductive PyExn where
  | syntaxError
  | valueError
  | nameError
  | typeError
deriving DecidableEq, Repr

/-- Python run-time values as they appear in the request parameters
after coercion. -/
inductive PyObj where
  | str (s : String)
  | int (n : Int)
  | bool (b : Bool)
  | list (items : List PyObj)
deriving Repr

/-- Outcome of the Python `eval(value)` call at src/main.py line 710:
either a value or an exception. The call evaluates arbitrary Python
source in the enclosing scope, so its outcome is input-dependent
external behavior; the dispatch model below is parameterized by an
oracle `String → EvalResult` giving the outcome for each raw string. -/
inductive EvalResult where
  | val (v : PyObj)
  | exn (e : PyExn)

/-- Result of coercing one supplied parameter value: a coerced value, a
user-visible error line (the `return` after a caught conversion
failure), or an uncaught exception propagating out of the handler. -/
inductive CoerceRes where
  | ok (v : PyObj)
  | fail (msg : String)
  | exn (e : PyExn)

/-- Observable outcome of `execute_command` on an API command: a single
error line written to the log, an uncaught Python exception, or a
dispatched request carrying the query-string parameters and the POST
body (a GET is sent when the body is empty, a POST otherwise,
src/main.py lines 726-730). -/
inductive ExecRes where
  | errorLine (s : String)
  | raised (e : PyExn)
  | dispatch (reqParams : List (String × PyObj)) (postData : List (String × PyObj))
deriving Repr

/-- The missing-parameter message of src/main.py line 694. -/
def missingMsg (p cmd : String) : String :=
  "Error: Missing required parameter --" ++ p ++ " for command " ++ cmd

/-- The integer-conversion message of src/main.py line 704. -/
def intMsg (p : String) : String :=
  "Error: Parameter --" ++ p ++ " expects an integer."

/-- The malformed-list message of src/main.py line 714. -/
def listMsg (p : String) : String :=
  "Error: Parameter --" ++ p ++ " expects a list (e.g., [1,2,3])."

/-- Model of Python `int(value)` on a string: optional surrounding
whitespace, an optional sign, then decimal digits (digit-group
underscores are not modelled; no theorem depends on them). -/
def digitsVal (l : List Char) : Option Nat :=
  if l.isEmpty then Option.none
  else if l.all Char.isDigit then
    some (l.foldl (fun acc c => acc * 10 + (c.toNat - 48)) 0)
  else Option.none

/-- Python `int` parsing on strings, `Option.none` on `ValueError`. -/
def pyIntParse (s : String) : Option Int :=
  match (pyStrip s).data with
  | '+' :: ds => (digitsVal ds).map Int.ofNat
  | '-' :: ds => (digitsVal ds).map (fun n => -(n : Int))
  | ds => (digitsVal ds).map Int.ofNat

/-- Python `str(value)` for the two shapes a parsed argument can have:
the raw string, or the boolean `True` of a bare flag. -/
def pyStrPVal : PVal → String
  | .str s => s
  | .flag => "True"

/-- Python `isinstance(value, list)`. -/
def isPyList : PyObj → Bool
  | .list _ => true
  | _ => false

/-- The per-parameter type conversion of src/main.py lines 698-715:
`int(value)` with `ValueError` caught; `str(value).lower()` membership
in `("true","1","yes")` for booleans (total); `eval(value)` for lists
with only `SyntaxError` and `ValueError` caught (a non-list result
raises a caught `ValueError`; `eval` of the boolean `True` raises an
uncaught `TypeError`); strings pass through unconverted. -/
def coerceVal (oracle : String → EvalResult) (name : String) (t : ParamType) (v : PVal) :
    CoerceRes :=
  match t with
  | .str =>
    match v with
    | .str s => .ok (.str s)
    | .flag => .ok (.bool true)
  | .int =>
    match v with
    | .str s =>
      match pyIntParse s with
      | some n => .ok (.int n)
      | Option.none => .fail (intMsg name)
    | .flag => .ok (.int 1)
  | .bool =>
    .ok (.bool (pyLower (pyStrPVal v) == "true" || pyLower (pyStrPVal v) == "1" ||
      pyLower (pyStrPVal v) == "yes"))
  | .list =>
    match v with
    | .str s =>
      match oracle s with
      | .val obj => if isPyList obj then .ok obj else .fail (listMsg name)
      | .exn .syntaxError => .fail (listMsg name)
      | .exn .valueError => .fail (listMsg name)
      | .exn e => .exn e
    | .flag => .exn .typeError

/-- The parameter validation and coercion loop of `execute_command`
(src/main.py lines 692-720), followed by the `beautify` extra
(lines 722-724) and the dispatch (lines 726-730). Each declared
parameter in descriptor order: a required parameter absent from the
parsed mapping stops the command with the missing-parameter line; a
present parameter is coerced by `coerceVal`, routed into the POST body
when marked `post` and into the query parameters otherwise. -/
def runParams (oracle : String → EvalResult) (cmd : String) (params : List (String × PVal)) :
    List (String × ParamSpec) → List (String × PyObj) → List (String × PyObj) → ExecRes
  | [], rq, pd =>
    let rq2 := if pyLookup "beautify" params = some PVal.flag then
      dictSet rq "beautify" (PyObj.bool true) else rq
    ExecRes.dispatch rq2 pd
  | q :: rest, rq, pd =>
    if q.2.required && (pyLookup q.1 params).isNone then
      ExecRes.errorLine (missingMsg q.1 cmd)
    else
      match pyLookup q.1 params with
      | Option.none => runParams oracle cmd params rest rq pd
      | some v =>
        match coerceVal oracle q.1 q.2.type v with
        | .ok obj =>
          if q.2.post then runParams oracle cmd params rest rq (dictSet pd q.1 obj)
          else runParams oracle cmd params rest (dictSet rq q.1 obj) pd
        | .fail msg => ExecRes.errorLine msg
        | .exn e => ExecRes.raised e

/-- The API-command branch of `execute_command` (src/main.py
lines 677-751) for a loaded API key: look the command up in the
augmented registry, run the parameter loop, and dispatch; an unknown
command produces only the unknown-command line. The `help`, `list`,
`search` and `exit` branches only write fixed text to the log and are
outside every claim under examination. -/
def execute (oracle : String → EvalResult) (key cmd : String)
    (params : List (String × PVal)) : ExecRes :=
  match pyLookup cmd api_methods_aug with
  | some ps =>
    runParams oracle cmd params ps [("cmd", PyObj.str cmd), ("key", PyObj.str key)] []
  | Option.none =>
    ExecRes.errorLine ("Unknown command: " ++ cmd ++ ". Type \x27help\x27 for a list of commands.")

/-- Eval-outcome oracle for the counterexample input: in the scope of
`execute_command` the expression `abc` names no local, global or
builtin, so Python `eval("abc")` raises `NameError` — an exception the
`except (SyntaxError, ValueError)` clause does not catch. -/
def evalNameErr : String → EvalResult :=
  fun _ => EvalResult.exn PyExn.nameError

/-- Modelled from the spec: the `window()` operation of the Suggestion
Navigation State (spec section 4.4); that component has no
implementation among the program sources. Following the spec formula:
size = min(5, len(candidates)),
start = clamp(selectedIndex - 2, 0, len(candidates) - size) — natural
subtraction models the lower clamp at 0 — and the result is the slice
candidates[start : start + size]. -/
def window (cands : List String) (sel : Nat) : List String :=
  let size := min 5 cands.length
  let start := min (sel - 2) (cands.length - size)
  (cands.drop start).take size

/-- A 150-character plain string used as the concrete truncation
witness. -/
def sampleLong : String :=
  String.mk (List.replicate 150 'a')

/-- True for the parameter types whose coercion can stop the command
(`int` parsing can fail, `list` evaluation can fail or raise); `string`
and `bool` coercions are total. -/
def failableType : ParamType → Bool
  | .int => true
  | .list => true
  | _ => false

/-- Structural property of a parameter descriptor list: no parameter
with a failable coercion is followed by a required parameter. On such a
list, a missing required parameter is always reported before any
conversion failure can occur. Checked below for the whole registry. -/
def qbOK : List (String × ParamSpec) → Bool
  | [] => true
  | q :: rest =>
    (!failableType q.2.type || rest.all (fun r => !r.2.required)) && qbOK rest

/-! ### Helper lemmas about the dictionary model and the parsers -/

theorem lookup_map_set {α : Type} (k : String) (v : α) :
    ∀ (d : List (String × α)), d.any (fun q => q.1 == k) = true →
      pyLookup k (d.map (fun q => if q.1 == k then (k, v) else q)) = some v := by
  intro d
  induction d with
  | nil => intro h; simp at h
  | cons q rest ih =>
    intro h
    by_cases hq : q.1 == k
    · simp [pyLookup, hq]
    · have h2 : rest.any (fun q => q.1 == k) = true := by
        simp only [List.any_cons, hq, Bool.false_or] at h
        exact h
      simp only [List.map_cons]
      rw [if_neg hq]
      simp only [pyLookup]
      rw [if_neg hq]
      exact ih h2

theorem lookup_append_self {α : Type} (k : String) (v : α) :
    ∀ (d : List (String × α)), d.any (fun q => q.1 == k) = false →
      pyLookup k (d ++ [(k, v)]) = some v := by
  intro d
  induction d with
  | nil => intro _; simp [pyLookup]
  | cons q rest ih =>
    intro h
    simp only [List.any_cons, Bool.or_eq_false_iff] at h
    simp [pyLookup, h.1, ih h.2]

theorem lookup_dictSet_self {α : Type} (d : List (String × α)) (k : String) (v : α) :
    pyLookup k (dictSet d k v) = some v := by
  by_cases h : d.any (fun q => q.1 == k)
  · simp only [dictSet, h, if_true]
    exact lookup_map_set k v d h
  · simp only [dictSet, (Bool.not_eq_true _).mp h, if_false]
    exact lookup_append_self k v d ((Bool.not_eq_true _).mp h)

theorem pyLookup_mem {α : Type} (k : String) (v : α) :
    ∀ (l : List (String × α)), pyLookup k l = some v → (k, v) ∈ l := by
  intro l
  induction l with
  | nil => intro h; simp [pyLookup] at h
  | cons q rest ih =>
    intro h
    by_cases hq : q.1 == k
    · simp only [pyLookup, hq, if_true, Option.some.injEq] at h
      have hk : q.1 = k := by simpa using hq
      have : q = (k, v) := by
        obtain ⟨q1, q2⟩ := q
        simp only [Prod.mk.injEq]
        exact ⟨hk, h⟩
      simp [this]
    · simp only [pyLookup, hq, if_false] at h
      exact List.mem_cons_of_mem _ (ih h)

theorem parseArgsGo_last_flag (n : Nat) :
    ∀ (args : List String), args.length ≤ n →
      ∀ (acc : List (String × PVal)) (lastTok : String),
        args.getLast? = some lastTok → pyStartsWith lastTok "--" = true →
        pyLookup (pyDropChars 2 lastTok) (parseArgsGo args acc) = some PVal.flag := by
  induction n with
  | zero =>
    intro args hlen acc lastTok hlast _
    have : args = [] := List.length_eq_zero.mp (Nat.le_zero.mp hlen)
    subst this
    simp at hlast
  | succ n ih =>
    intro args hlen acc lastTok hlast hsw
    match args with
    | [] => simp at hlast
    | [a] =>
      have ha : a = lastTok := by simpa using hlast
      subst ha
      simp only [parseArgsGo, hsw, if_true]
      exact lookup_dictSet_self acc (pyDropChars 2 a) PVal.flag
    | a :: b :: rest =>
      have hlast2 : (b :: rest).getLast? = some lastTok := by
        rw [List.getLast?_cons_cons] at hlast
        exact hlast
      have hlen2 : (b :: rest).length ≤ n := by
        simp only [List.length_cons] at hlen ⊢
        omega
      by_cases hsa : pyStartsWith a "--"
      · by_cases hsb : pyStartsWith b "--"
        · simp only [parseArgsGo, hsa, hsb, if_true]
          exact ih (b :: rest) hlen2 _ lastTok hlast2 hsw
        · match rest with
          | [] =>
            have hb : b = lastTok := by simpa using hlast2
            subst hb
            exact absurd hsw (by simpa using hsb)
          | c :: rest2 =>
            have hlast3 : (c :: rest2).getLast? = some lastTok := by
              rw [List.getLast?_cons_cons] at hlast2
              exact hlast2
            have hlen3 : (c :: rest2).length ≤ n := by
              simp only [List.length_cons] at hlen ⊢
              omega
            simp only [parseArgsGo, hsa, hsb, if_true, Bool.false_eq_true, if_false]
            exact ih (c :: rest2) hlen3 _ lastTok hlast3 hsw
      · simp only [parseArgsGo, hsa, Bool.false_eq_true, if_false]
        exact ih (b :: rest) hlen2 _ lastTok hlast2 hsw

theorem startsWith_dashdash_decomp (tok : String) (h : pyStartsWith tok "--" = true) :
    tok = "--" ++ pyDropChars 2 tok := by
  obtain ⟨l⟩ := tok
  rcases l with _ | ⟨c1, _ | ⟨c2, rest⟩⟩
  · simp [pyStartsWith, isPre] at h
  · simp [pyStartsWith, isPre] at h
  · have h12 : '-' = c1 ∧ '-' = c2 := by
      simpa [pyStartsWith, isPre, Bool.and_eq_true] using h
    obtain ⟨e1, e2⟩ := h12
    subst e1
    subst e2
    rfl

theorem pyLookup_cons_eq {α : Type} (q : String × α) (rest : List (String × α)) (k : String)
    (h : (q.1 == k) = true) : pyLookup k (q :: rest) = some q.2 := by
  simp only [pyLookup, h, if_true]

theorem pyLookup_cons_ne {α : Type} (q : String × α) (rest : List (String × α)) (k : String)
    (h : (q.1 == k) = false) : pyLookup k (q :: rest) = pyLookup k rest := by
  simp only [pyLookup, h, Bool.false_eq_true, if_false]

theorem lookup_map_set_ne {α : Type} (k k' : String) (v : α) (h : k' ≠ k) :
    ∀ (d : List (String × α)),
      pyLookup k (d.map (fun q => if q.1 == k' then (k', v) else q)) = pyLookup k d := by
  intro d
  induction d with
  | nil => rfl
  | cons q rest ih =>
    have hk : (k' == k) = false := by
      simpa using h
    by_cases hq : (q.1 == k') = true
    · have hq1 : q.1 = k' := by simpa using hq
      rw [List.map_cons, if_pos hq, pyLookup_cons_ne (k', v) _ k hk,
        pyLookup_cons_ne q rest k (by rw [hq1]; exact hk), ih]
    · rw [List.map_cons, if_neg hq]
      by_cases hqk : (q.1 == k) = true
      · rw [pyLookup_cons_eq q _ k hqk, pyLookup_cons_eq q rest k hqk]
      · have hqkb : (q.1 == k) = false := (Bool.not_eq_true _).mp hqk
        rw [pyLookup_cons_ne q _ k hqkb, pyLookup_cons_ne q rest k hqkb, ih]

theorem lookup_append_ne {α : Type} (k k' : String) (v : α) (h : k' ≠ k) :
    ∀ (d : List (String × α)), pyLookup k (d ++ [(k', v)]) = pyLookup k d := by
  intro d
  have hk : (k' == k) = false := by
    simpa using h
  induction d with
  | nil =>
    rw [List.nil_append, pyLookup_cons_ne (k', v) [] k hk]
  | cons q rest ih =>
    rw [List.cons_append]
    by_cases hqk : (q.1 == k) = true
    · rw [pyLookup_cons_eq q _ k hqk, pyLookup_cons_eq q rest k hqk]
    · have hqkb : (q.1 == k) = false := (Bool.not_eq_true _).mp hqk
      rw [pyLookup_cons_ne q _ k hqkb, pyLookup_cons_ne q rest k hqkb, ih]

theorem lookup_dictSet_ne {α : Type} (d : List (String × α)) (k k' : String) (v : α)
    (h : k' ≠ k) : pyLookup k (dictSet d k' v) = pyLookup k d := by
  by_cases hany : d.any (fun q => q.1 == k')
  · simp only [dictSet, hany, if_true]
    exact lookup_map_set_ne k k' v h d
  · simp only [dictSet, (Bool.not_eq_true _).mp hany, if_false]
    exact lookup_append_ne k k' v h d

theorem mem_keys_dictSet_self {α : Type} (d : List (String × α)) (k : String) (v : α) :
    k ∈ (dictSet d k v).map Prod.fst :=
  List.mem_map_of_mem Prod.fst (pyLookup_mem k v _ (lookup_dictSet_self d k v))

theorem mem_keys_dictSet_mono {α : Type} (d : List (String × α)) (k k' : String) (v : α)
    (h : k ∈ d.map Prod.fst) : k ∈ (dictSet d k' v).map Prod.fst := by
  by_cases hany : d.any (fun q => q.1 == k')
  · simp only [dictSet, hany, if_true]
    obtain ⟨q, hq, hfst⟩ := List.mem_map.mp h
    apply List.mem_map.mpr
    refine ⟨if q.1 == k' then (k', v) else q, List.mem_map_of_mem _ hq, ?_⟩
    by_cases hq2 : q.1 == k'
    · have hq1 : q.1 = k' := by simpa using hq2
      simp only [if_pos hq2]
      rw [← hfst, hq1]
    · simp only [if_neg hq2]
      exact hfst
  · simp only [dictSet, (Bool.not_eq_true _).mp hany, Bool.false_eq_true, if_false,
      List.map_append]
    exact List.mem_append_left _ h

theorem parseArgsGo_keys_mono (n : Nat) :
    ∀ (args : List String) (acc : List (String × PVal)) (k : String), args.length ≤ n →
      k ∈ acc.map Prod.fst → k ∈ (parseArgsGo args acc).map Prod.fst := by
  induction n with
  | zero =>
    intro args acc k hlen hacc
    have hnil : args = [] := List.length_eq_zero.mp (Nat.le_zero.mp hlen)
    subst hnil
    simpa [parseArgsGo] using hacc
  | succ n ih =>
    intro args acc k hlen hacc
    match args with
    | [] => simpa [parseArgsGo] using hacc
    | a :: rest =>
      by_cases hsa : pyStartsWith a "--"
      · match rest with
        | [] =>
          simp only [parseArgsGo, hsa, if_true]
          exact mem_keys_dictSet_mono acc k _ PVal.flag hacc
        | b :: rest2 =>
          by_cases hsb : pyStartsWith b "--"
          · simp only [parseArgsGo, hsa, hsb, if_true]
            exact ih (b :: rest2) _ k (by simp at hlen ⊢; omega)
              (mem_keys_dictSet_mono acc k _ PVal.flag hacc)
          · simp only [parseArgsGo, hsa, hsb, if_true, Bool.false_eq_true, if_false]
            exact ih rest2 _ k (by simp at hlen ⊢; omega)
              (mem_keys_dictSet_mono acc k _ (PVal.str b) hacc)
      · cases rest with
        | nil =>
          simp only [parseArgsGo, hsa, Bool.false_eq_true, if_false]
          simpa [parseArgsGo] using hacc
        | cons c rest2 =>
          simp only [parseArgsGo, hsa, Bool.false_eq_true, if_false]
          exact ih (c :: rest2) acc k (by simp at hlen ⊢; omega) hacc

theorem parseArgsGo_flag_key (n : Nat) :
    ∀ (args : List String) (acc : List (String × PVal)) (tok : String), args.length ≤ n →
      tok ∈ args → pyStartsWith tok "--" = true →
      (pyDropChars 2 tok) ∈ (parseArgsGo args acc).map Prod.fst := by
  induction n with
  | zero =>
    intro args acc tok hlen hmem _
    have hnil : args = [] := List.length_eq_zero.mp (Nat.le_zero.mp hlen)
    subst hnil
    simp at hmem
  | succ n ih =>
    intro args acc tok hlen hmem hsw
    match args with
    | [] => simp at hmem
    | a :: rest =>
      rcases List.mem_cons.mp hmem with rfl | hmem2
      · -- the flag token is the head
        match rest with
        | [] =>
          simp only [parseArgsGo, hsw, if_true]
          exact mem_keys_dictSet_self acc _ PVal.flag
        | b :: rest2 =>
          by_cases hsb : pyStartsWith b "--"
          · simp only [parseArgsGo, hsw, hsb, if_true]
            exact parseArgsGo_keys_mono (b :: rest2).length (b :: rest2) _ _ le_rfl
              (mem_keys_dictSet_self acc _ PVal.flag)
          · simp only [parseArgsGo, hsw, hsb, if_true, Bool.false_eq_true, if_false]
            exact parseArgsGo_keys_mono rest2.length rest2 _ _ le_rfl
              (mem_keys_dictSet_self acc _ (PVal.str b))
      · -- the flag token is further on
        by_cases hsa : pyStartsWith a "--"
        · match rest with
          | [] => simp at hmem2
          | b :: rest2 =>
            by_cases hsb : pyStartsWith b "--"
            · simp only [parseArgsGo, hsa, hsb, if_true]
              exact ih (b :: rest2) _ tok (by simp at hlen ⊢; omega) hmem2 hsw
            · have htb : tok ≠ b := by
                intro e
                rw [e] at hsw
                rw [hsw] at hsb
                exact hsb rfl
              have hmem3 : tok ∈ rest2 := by
                rcases List.mem_cons.mp hmem2 with rfl | hm
                · exact absurd rfl htb
                · exact hm
              simp only [parseArgsGo, hsa, hsb, if_true, Bool.false_eq_true, if_false]
              exact ih rest2 _ tok (by simp at hlen ⊢; omega) hmem3 hsw
        · cases rest with
          | nil => simp at hmem2
          | cons c rest2 =>
            simp only [parseArgsGo, hsa, Bool.false_eq_true, if_false]
            exact ih (c :: rest2) acc tok (by simp at hlen ⊢; omega) hmem2 hsw

theorem parseArgsGo_preserves (k : String) (w : PVal) (n : Nat) :
    ∀ (args : List String) (acc : List (String × PVal)), args.length ≤ n →
      ("--" ++ k) ∉ args → pyLookup k acc = some w →
      pyLookup k (parseArgsGo args acc) = some w := by
  induction n with
  | zero =>
    intro args acc hlen _ hacc
    have hnil : args = [] := List.length_eq_zero.mp (Nat.le_zero.mp hlen)
    subst hnil
    simpa [parseArgsGo] using hacc
  | succ n ih =>
    intro args acc hlen hnot hacc
    match args with
    | [] => simpa [parseArgsGo] using hacc
    | a :: rest =>
      have hna : a ≠ "--" ++ k := by
        intro e
        exact hnot (by rw [← e]; exact List.mem_cons_self a rest)
      have hnr : ("--" ++ k) ∉ rest := fun hm => hnot (List.mem_cons_of_mem a hm)
      by_cases hsa : pyStartsWith a "--"
      · have hkey : pyDropChars 2 a ≠ k := by
          intro e
          apply hna
          have hd := startsWith_dashdash_decomp a hsa
          rw [hd, e]
        match rest with
        | [] =>
          simp only [parseArgsGo, hsa, if_true]
          rw [lookup_dictSet_ne acc k _ PVal.flag hkey]
          exact hacc
        | b :: rest2 =>
          have hnr2 : ("--" ++ k) ∉ rest2 := fun hm => hnr (List.mem_cons_of_mem b hm)
          by_cases hsb : pyStartsWith b "--"
          · simp only [parseArgsGo, hsa, hsb, if_true]
            exact ih (b :: rest2) _ (by simp at hlen ⊢; omega) hnr
              (by rw [lookup_dictSet_ne acc k _ PVal.flag hkey]; exact hacc)
          · simp only [parseArgsGo, hsa, hsb, if_true, Bool.false_eq_true, if_false]
            exact ih rest2 _ (by simp at hlen ⊢; omega) hnr2
              (by rw [lookup_dictSet_ne acc k _ (PVal.str b) hkey]; exact hacc)
      · cases rest with
        | nil =>
          simp only [parseArgsGo, hsa, Bool.false_eq_true, if_false]
          simpa [parseArgsGo] using hacc
        | cons c rest2 =>
          simp only [parseArgsGo, hsa, Bool.false_eq_true, if_false]
          exact ih (c :: rest2) acc (by simp at hlen ⊢; omega)
            (fun hm => hnot (List.mem_cons_of_mem a hm)) hacc

theorem parseArgsGo_append_flagHead (n : Nat) :
    ∀ (pre : List String) (acc : List (String × PVal)) (b : String) (suf : List String),
      pre.length ≤ n → pyStartsWith b "--" = true →
      ∃ acc2, parseArgsGo (pre ++ b :: suf) acc = parseArgsGo (b :: suf) acc2 := by
  induction n with
  | zero =>
    intro pre acc b suf hlen _
    have hnil : pre = [] := List.length_eq_zero.mp (Nat.le_zero.mp hlen)
    subst hnil
    exact ⟨acc, rfl⟩
  | succ n ih =>
    intro pre acc b suf hlen hb
    match pre with
    | [] => exact ⟨acc, rfl⟩
    | a :: rest =>
      by_cases hsa : pyStartsWith a "--"
      · match rest with
        | [] =>
          refine ⟨dictSet acc (pyDropChars 2 a) PVal.flag, ?_⟩
          simp only [List.cons_append, List.nil_append, parseArgsGo, hsa, hb, if_true]
        | c :: rest2 =>
          by_cases hsc : pyStartsWith c "--"
          · obtain ⟨acc2, he⟩ := ih (c :: rest2) (dictSet acc (pyDropChars 2 a) PVal.flag)
              b suf (by simp at hlen ⊢; omega) hb
            refine ⟨acc2, ?_⟩
            simp only [List.cons_append, parseArgsGo, hsa, hsc, if_true]
            simpa [List.cons_append] using he
          · obtain ⟨acc2, he⟩ := ih rest2 (dictSet acc (pyDropChars 2 a) (PVal.str c))
              b suf (by simp at hlen ⊢; omega) hb
            refine ⟨acc2, ?_⟩
            simp only [List.cons_append, parseArgsGo, hsa, hsc, if_true, Bool.false_eq_true,
              if_false]
            exact he
      · match rest with
        | [] =>
          refine ⟨acc, ?_⟩
          simp only [List.nil_append, List.cons_append, parseArgsGo, hsa,
            Bool.false_eq_true, if_false]
          rfl
        | c :: rest2 =>
          obtain ⟨acc2, he⟩ := ih (c :: rest2) acc b suf (by simp at hlen ⊢; omega) hb
          refine ⟨acc2, ?_⟩
          simp only [List.cons_append, parseArgsGo, hsa, Bool.false_eq_true, if_false]
          simpa [List.cons_append] using he

/-! ### Claim C1 -/

/-- C1 counterexample: parsing the line `getScript --id 150 --source`
does not drop the trailing bare flag `--source`; the resulting mapping
binds `source` to the boolean flag value, so it is not
`[("id", "150")]` as the claim states. -/
theorem claim_C1_cex :
    parse_line "getScript --id 150 --source" =
      (some "getScript", [("id", PVal.str "150"), ("source", PVal.flag)]) ∧
    pyLookup "source" (parse_arguments ["--id", "150", "--source"]) = some PVal.flag ∧
    parse_arguments ["--id", "150", "--source"] ≠ [("id", PVal.str "150")] := by
  refine ⟨by decide, by decide, by decide⟩

/-- C1 amended: a bare flag is not dropped by `parse_arguments`. Every
`--` token contributes its name (the token minus the marker) as a key
of the resulting mapping — so a bare flag immediately followed by
another `--` token still appears in the mapping, though when the same
name occurs again later, the later occurrence determines its final
value — and a bare flag in final position is always bound to the
boolean value `True`. Concretely, parsing the line
`getScript --id 150 --source` yields the command `getScript` and the
mapping `[("id", "150"), ("source", True)]`. -/
theorem claim_C1_amended :
    (∀ (args : List String) (tok : String), tok ∈ args → pyStartsWith tok "--" = true →
        (pyDropChars 2 tok) ∈ (parse_arguments args).map Prod.fst) ∧
    (∀ (args : List String) (lastTok : String),
        args.getLast? = some lastTok → pyStartsWith lastTok "--" = true →
        pyLookup (pyDropChars 2 lastTok) (parse_arguments args) = some PVal.flag) ∧
    parse_line "getScript --id 150 --source" =
      (some "getScript", [("id", PVal.str "150"), ("source", PVal.flag)]) := by
  refine ⟨?_, ?_, by decide⟩
  · intro args tok hmem hsw
    exact parseArgsGo_flag_key args.length args [] tok le_rfl hmem hsw
  · intro args lastTok hlast hsw
    exact parseArgsGo_last_flag args.length args le_rfl [] lastTok hlast hsw

/-- C1 witness: the single bare flag `--source` ends up bound to the
boolean flag value, and a bare `--id` followed by another `--id` token
still contributes the key `id` to the mapping. -/
theorem claim_C1_amended_witness :
    pyLookup (pyDropChars 2 "--source") (parse_arguments ["--source"]) = some PVal.flag ∧
    pyDropChars 2 "--id" ∈ (parse_arguments ["--id", "--id", "5"]).map Prod.fst :=
  ⟨claim_C1_amended.2.1 ["--source"] "--source" (by decide) (by decide),
   claim_C1_amended.1 ["--id", "--id", "5"] "--id" (by decide) (by decide)⟩

/-! ### Claim C10 -/

/-- C10: in every argument token list in which the same flag name
appears more than once — written as an occurrence of the flag somewhere
in a prefix `pre`, and a last occurrence followed by a value token `v`,
with arbitrary further tokens `post` containing no later occurrence —
the parser binds the name to the value of the last occurrence: earlier
bindings are silently overwritten and no error or warning is
produced. -/
theorem claim_C10_last_occurrence_wins (k v : String) (pre post : List String)
    (_hmulti : ("--" ++ k) ∈ pre) (hv : pyStartsWith v "--" = false)
    (hlast : ("--" ++ k) ∉ post) :
    pyLookup k (parse_arguments (pre ++ ["--" ++ k, v] ++ post)) = some (PVal.str v) := by
  have hsk : pyStartsWith ("--" ++ k) "--" = true := by
    obtain ⟨l⟩ := k
    rfl
  have hdk : pyDropChars 2 ("--" ++ k) = k := by
    obtain ⟨l⟩ := k
    rfl
  obtain ⟨acc2, he⟩ := parseArgsGo_append_flagHead pre.length pre [] ("--" ++ k)
    (v :: post) le_rfl hsk
  have hassoc : pre ++ ["--" ++ k, v] ++ post = pre ++ ("--" ++ k) :: v :: post := by
    simp [List.append_assoc]
  rw [parse_arguments, hassoc, he]
  simp only [parseArgsGo, hsk, hv, if_true, Bool.false_eq_true, if_false, hdk]
  exact parseArgsGo_preserves k (PVal.str v) post.length post _ le_rfl hlast
    (lookup_dictSet_self acc2 k (PVal.str v))

/-- C10 witness: in `--id 1 --id 2` the name `id` is bound to `"2"`,
the value of its last occurrence. -/
theorem claim_C10_last_occurrence_wins_witness :
    pyLookup "id" (parse_arguments ["--id", "1", "--id", "2"]) = some (PVal.str "2") := by
  have h := claim_C10_last_occurrence_wins "id" "2" ["--id", "1"] []
    (by decide) (by decide) (by simp)
  have e : "--" ++ "id" = "--id" := rfl
  rw [e] at h
  exact h

/-! ### Claims C2 and C3 -/

theorem dropWhile_eq_self_of_all {p : Char → Bool} :
    ∀ (l : List Char), (∀ c ∈ l, p c = false) → l.dropWhile p = l := by
  intro l h
  cases l with
  | nil => rfl
  | cons c rest => simp [List.dropWhile_cons, h c (by simp)]

theorem pyStrip_eq_self (t : String)
    (h : t.data.all (fun c => !c.isWhitespace) = true) : pyStrip t = t := by
  have hall : ∀ c ∈ t.data, c.isWhitespace = false := by
    intro c hc
    have := List.all_eq_true.mp h c hc
    simpa using this
  have e1 : t.data.dropWhile Char.isWhitespace = t.data :=
    dropWhile_eq_self_of_all t.data hall
  have e2 : t.data.reverse.dropWhile Char.isWhitespace = t.data.reverse :=
    dropWhile_eq_self_of_all t.data.reverse (by
      intro c hc
      exact hall c (List.mem_reverse.mp hc))
  obtain ⟨l⟩ := t
  simp only [pyStrip] at *
  rw [e1, e2, List.reverse_reverse]

theorem pyLower_ne_empty (t : String) (h : t ≠ "") : pyLower t ≠ "" := by
  intro hc
  apply h
  obtain ⟨l⟩ := t
  simp only [pyLower] at hc
  have hl : l.map Char.toLower = [] := by
    have := congrArg String.data hc
    simpa using this
  have hnil : l = [] := List.map_eq_nil_iff.mp hl
  subst hnil
  rfl

/-- C2 counterexample: completing `getScript --` yields the empty
candidate list, while the full parameter list of `getScript` (which the
claim demands as candidates) is the non-empty
`--id --source --needs_sync --needs_update --beautify`. -/
theorem claim_C2_cex :
    on_input_changed "getScript --" = [] ∧
    ((pyLookup "getScript" api_methods_aug).getD []).map (fun q => "--" ++ q.1) =
      ["--id", "--source", "--needs_sync", "--needs_update", "--beautify"] ∧
    (["--id", "--source", "--needs_sync", "--needs_update", "--beautify"] : List String) ≠
      [] := by
  refine ⟨by decide, by decide, by decide⟩

/-- C2 amended: the completion handler matches the whole lowercased
input text against command names only — there is no argument-completion
context. For every registered command `cmd`, completing `cmd ++ " --"`
yields no candidates at all, because no command name contains a
space. -/
theorem claim_C2_amended :
    ∀ cmd ∈ commandNames, on_input_changed (cmd ++ " --") = [] := by
  decide

/-- C2 witness: completing `getScript --` yields no candidates. -/
theorem claim_C2_amended_witness :
    on_input_changed ("getScript" ++ " --") = [] :=
  claim_C2_amended "getScript" (by decide)

/-- C3 counterexample: the single-token input `getscript` is not a
case-sensitive prefix of the command name `getScript`, yet that command
is among the completion candidates — the handler folds case on both
sides. -/
theorem claim_C3_cex :
    "getScript" ∈ on_input_changed "getscript" ∧
    pyStartsWith "getScript" "getscript" = false := by
  refine ⟨by decide, by decide⟩

/-- C3 amended: for a single-token input the candidates are exactly the
registered command names whose lowercased form has the lowercased token
as a prefix, in registry order (the handler lowercases both sides, so
matching is case-insensitive, not case-sensitive). -/
theorem claim_C3_amended (t : String) (h1 : t ≠ "")
    (h2 : t.data.all (fun c => !c.isWhitespace) = true) (_h3 : t ≠ "help") :
    (∀ c, c ∈ on_input_changed t ↔
      c ∈ commandNames ∧ pyStartsWith (pyLower c) (pyLower t) = true) ∧
    List.Sublist (on_input_changed t) commandNames := by
  have hstrip : pyStrip t = t := pyStrip_eq_self t h2
  have hne : ¬(pyLower t = "") := pyLower_ne_empty t h1
  constructor
  · intro c
    simp [on_input_changed, hstrip, hne, List.mem_filter]
  · simp only [on_input_changed, hstrip, hne, if_false]
    exact List.filter_sublist _

/-- C3 witness: the lowercased input `getscript` matches the command
`getScript`. -/
theorem claim_C3_amended_witness :
    "getScript" ∈ on_input_changed "getscript" :=
  ((claim_C3_amended "getscript" (by decide) (by decide) (by decide)).1 "getScript").mpr
    ⟨by decide, by decide⟩

/-! ### Claim C9 -/

/-- C9: for a candidate list of length `L > 0` and a selected index in
`[0, L)`, the suggestion window is a contiguous slice of size exactly
`min 5 L` starting at `clamp (sel - 2) 0 (L - size)`, and the selected
index always lies inside the window. -/
theorem claim_C9_window (cands : List String) (sel : Nat) (h : sel < cands.length) :
    (window cands sel).length = min 5 cands.length ∧
    ∃ start, start = min (sel - 2) (cands.length - min 5 cands.length) ∧
      window cands sel = (cands.drop start).take (min 5 cands.length) ∧
      start ≤ sel ∧ sel < start + min 5 cands.length := by
  constructor
  · simp only [window, List.length_take, List.length_drop]
    omega
  · exact ⟨_, rfl, rfl, by omega, by omega⟩

/-- C9 witness: in a seven-element candidate list with index 6
selected, the window is the final five elements and contains the
selection. -/
theorem claim_C9_window_witness :
    (window ["a", "b", "c", "d", "e", "f", "g"] 6).length = 5 ∧
    window ["a", "b", "c", "d", "e", "f", "g"] 6 = ["c", "d", "e", "f", "g"] := by
  have h := claim_C9_window ["a", "b", "c", "d", "e", "f", "g"] 6 (by decide)
  exact ⟨h.1.trans (by decide), by decide⟩

/-! ### Claims C4 and C5 -/

theorem api_table_qbOK : api_methods_aug.all (fun e => qbOK e.2) = true := by
  decide

theorem coerce_total_of_not_failable (oracle : String → EvalResult) (name : String)
    (t : ParamType) (v : PVal) (h : failableType t = false) :
    ∃ obj, coerceVal oracle name t v = .ok obj := by
  cases t with
  | str => cases v <;> exact ⟨_, rfl⟩
  | bool => exact ⟨_, rfl⟩
  | int => simp [failableType] at h
  | list => simp [failableType] at h

theorem runParams_missing (oracle : String → EvalResult) (cmd : String)
    (params : List (String × PVal)) :
    ∀ (ps : List (String × ParamSpec)) (rq pd : List (String × PyObj)),
      qbOK ps = true →
      (∃ q ∈ ps, q.2.required = true ∧ pyLookup q.1 params = Option.none) →
      ∃ q ∈ ps, q.2.required = true ∧ pyLookup q.1 params = Option.none ∧
        runParams oracle cmd params ps rq pd = ExecRes.errorLine (missingMsg q.1 cmd) := by
  intro ps
  induction ps with
  | nil =>
    rintro rq pd _ ⟨q, hq, _⟩
    simp at hq
  | cons q0 rest ih =>
    intro rq pd hqb hex
    have hqbr : qbOK rest = true := by
      simp only [qbOK, Bool.and_eq_true] at hqb
      exact hqb.2
    by_cases h0 : q0.2.required = true ∧ pyLookup q0.1 params = Option.none
    · refine ⟨q0, by simp, h0.1, h0.2, ?_⟩
      simp [runParams, h0.1, h0.2]
    · have hexr : ∃ q ∈ rest, q.2.required = true ∧ pyLookup q.1 params = Option.none := by
        obtain ⟨q, hq, hr1, hr2⟩ := hex
        rcases List.mem_cons.mp hq with rfl | hq2
        · exact absurd ⟨hr1, hr2⟩ h0
        · exact ⟨q, hq2, hr1, hr2⟩
      cases hl : pyLookup q0.1 params with
      | none =>
        have hreq : q0.2.required = false := by
          rcases Bool.eq_false_or_eq_true q0.2.required with hb | hb
          · exact absurd ⟨hb, hl⟩ h0
          · exact hb
        obtain ⟨q, hq, hr1, hr2, hr3⟩ := ih rq pd hqbr hexr
        refine ⟨q, List.mem_cons_of_mem _ hq, hr1, hr2, ?_⟩
        simpa [runParams, hreq, hl] using hr3
      | some v =>
        have hnf : failableType q0.2.type = false := by
          rcases Bool.eq_false_or_eq_true (failableType q0.2.type) with hb | hb
          · exfalso
            have hall : rest.all (fun r => !r.2.required) = true := by
              simp only [qbOK, hb, Bool.not_true, Bool.false_or, Bool.and_eq_true] at hqb
              exact hqb.1
            obtain ⟨q, hq, hr1, _⟩ := hexr
            have := List.all_eq_true.mp hall q hq
            simp [hr1] at this
          · exact hb
        obtain ⟨obj, hobj⟩ := coerce_total_of_not_failable oracle q0.1 q0.2.type v hnf
        cases hpost : q0.2.post with
        | true =>
          obtain ⟨q, hq, hr1, hr2, hr3⟩ := ih rq (dictSet pd q0.1 obj) hqbr hexr
          refine ⟨q, List.mem_cons_of_mem _ hq, hr1, hr2, ?_⟩
          simpa [runParams, hl, hobj, hpost] using hr3
        | false =>
          obtain ⟨q, hq, hr1, hr2, hr3⟩ := ih (dictSet rq q0.1 obj) pd hqbr hexr
          refine ⟨q, List.mem_cons_of_mem _ hq, hr1, hr2, ?_⟩
          simpa [runParams, hl, hobj, hpost] using hr3

/-- C5: for every registered command and every parsed argument mapping,
if some declared required parameter is absent from the mapping, then
`execute_command` writes the missing-parameter error line naming a
missing required parameter and returns before any request is
dispatched. -/
theorem claim_C5_missing_required_blocks_dispatch
    (oracle : String → EvalResult) (key cmd : String) (params : List (String × PVal))
    (ps : List (String × ParamSpec))
    (hcmd : pyLookup cmd api_methods_aug = some ps)
    (hmiss : ∃ q ∈ ps, q.2.required = true ∧ pyLookup q.1 params = Option.none) :
    ∃ q ∈ ps, q.2.required = true ∧ pyLookup q.1 params = Option.none ∧
      execute oracle key cmd params = ExecRes.errorLine (missingMsg q.1 cmd) ∧
      ∀ rq pd, execute oracle key cmd params ≠ ExecRes.dispatch rq pd := by
  have hmem : (cmd, ps) ∈ api_methods_aug := pyLookup_mem cmd ps api_methods_aug hcmd
  have hqb : qbOK ps = true := List.all_eq_true.mp api_table_qbOK (cmd, ps) hmem
  obtain ⟨q, hq, h1, h2, h3⟩ := runParams_missing oracle cmd params ps
    [("cmd", PyObj.str cmd), ("key", PyObj.str key)] [] hqb hmiss
  have he : execute oracle key cmd params = ExecRes.errorLine (missingMsg q.1 cmd) := by
    simpa [execute, hcmd] using h3
  refine ⟨q, hq, h1, h2, he, ?_⟩
  intro rq pd hc
  exact ExecRes.noConfusion (he.symm.trans hc)

/-- C5 witness: `getScript` with no arguments stops with the
missing-parameter line for `--id` and dispatches nothing. -/
theorem claim_C5_missing_required_blocks_dispatch_witness :
    execute evalNameErr "k" "getScript" [] = ExecRes.errorLine (missingMsg "id" "getScript") ∧
    execute evalNameErr "k" "getScript" [] ≠
      ExecRes.dispatch [("cmd", PyObj.str "getScript"), ("key", PyObj.str "k")] [] := by
  obtain ⟨q, hq, h1, h2, h3, h4⟩ := claim_C5_missing_required_blocks_dispatch
    evalNameErr "k" "getScript" []
    ((pyLookup "getScript" api_methods_aug).getD []) rfl
    ⟨("id", ⟨ParamType.int, true, false⟩), by decide, rfl, rfl⟩
  exact ⟨rfl, h4 _ _⟩

/-- C4 counterexample: for the list-typed parameter `projects` of
`setMemberProjects`, the raw value `abc` does not parse as a list
literal, yet submission does not produce the malformed-list error line:
`eval("abc")` raises `NameError`, which the
`except (SyntaxError, ValueError)` handler does not catch, so the
exception escapes the submission handler. -/
theorem claim_C4_uncaught_nameerror_cex :
    execute evalNameErr "k" "setMemberProjects" [("projects", PVal.str "abc")] =
      ExecRes.raised PyExn.nameError ∧
    execute evalNameErr "k" "setMemberProjects" [("projects", PVal.str "abc")] ≠
      ExecRes.errorLine (listMsg "projects") := by
  have h0 : execute evalNameErr "k" "setMemberProjects" [("projects", PVal.str "abc")] =
      ExecRes.raised PyExn.nameError := rfl
  exact ⟨h0, fun hc => ExecRes.noConfusion (h0.symm.trans hc)⟩

/-- C4 amended: a value supplied for the list-typed `projects`
parameter is reported with the single malformed-list error line exactly
when its evaluation raises `SyntaxError` or `ValueError` or returns a
non-list value; an evaluation raising any other exception (such as
`NameError` for the bare identifier `abc`) escapes the submission
handler uncaught instead of being reported. -/
theorem claim_C4_list_error_amended :
    (∀ (oracle : String → EvalResult) (key raw : String) (e : PyExn),
        oracle raw = EvalResult.exn e → e ≠ PyExn.syntaxError → e ≠ PyExn.valueError →
        execute oracle key "setMemberProjects" [("projects", PVal.str raw)] =
          ExecRes.raised e) ∧
    (∀ (oracle : String → EvalResult) (key raw : String) (e : PyExn),
        oracle raw = EvalResult.exn e → (e = PyExn.syntaxError ∨ e = PyExn.valueError) →
        execute oracle key "setMemberProjects" [("projects", PVal.str raw)] =
          ExecRes.errorLine (listMsg "projects")) ∧
    (∀ (oracle : String → EvalResult) (key raw : String) (v : PyObj),
        oracle raw = EvalResult.val v → isPyList v = false →
        execute oracle key "setMemberProjects" [("projects", PVal.str raw)] =
          ExecRes.errorLine (listMsg "projects")) := by
  refine ⟨?_, ?_, ?_⟩
  · intro oracle key raw e h1 h2 h3
    cases e with
    | syntaxError => exact absurd rfl h2
    | valueError => exact absurd rfl h3
    | nameError => simp [execute, runParams, coerceVal, pyLookup, h1]
    | typeError => simp [execute, runParams, coerceVal, pyLookup, h1]
  · intro oracle key raw e h1 h2
    rcases h2 with rfl | rfl <;> simp [execute, runParams, coerceVal, pyLookup, h1]
  · intro oracle key raw v h1 h2
    simp [execute, runParams, coerceVal, pyLookup, h1, h2]

/-- C4 witness: the concrete outcomes at the value `abc` (uncaught
`NameError`) and at an evaluation outcome `ValueError` (reported
malformed-list line). -/
theorem claim_C4_list_error_amended_witness :
    execute evalNameErr "k" "setMemberProjects" [("projects", PVal.str "abc")] =
      ExecRes.raised PyExn.nameError ∧
    execute (fun _ => EvalResult.exn PyExn.valueError) "k" "setMemberProjects"
      [("projects", PVal.str "abc")] = ExecRes.errorLine (listMsg "projects") := by
  refine ⟨claim_C4_list_error_amended.1 evalNameErr "k" "abc" PyExn.nameError rfl
    (by decide) (by decide), ?_⟩
  exact claim_C4_list_error_amended.2.1 (fun _ => EvalResult.exn PyExn.valueError) "k" "abc"
    PyExn.valueError rfl (Or.inr rfl)

/-! ### Claims C6, C7 and C8 -/

theorem chunks80_length : ∀ (N : Nat) (l : List Char), l.length ≤ N →
    (chunksAux 79 l).length = (l.length + 79) / 80 := by
  intro N
  induction N with
  | zero =>
    intro l h
    have hnil : l = [] := List.length_eq_zero.mp (Nat.le_zero.mp h)
    subst hnil
    simp [chunksAux]
  | succ N ih =>
    intro l h
    cases l with
    | nil => simp [chunksAux]
    | cons c cs =>
      rw [chunksAux]
      simp only [List.length_cons, List.drop_succ_cons]
      rw [ih (cs.drop 79) (by
        simp only [List.length_drop]
        simp only [List.length_cons] at h
        omega)]
      simp only [List.length_drop]
      omega

theorem chunks80_join : ∀ (N : Nat) (l : List Char), l.length ≤ N →
    (chunksAux 79 l).flatten = l := by
  intro N
  induction N with
  | zero =>
    intro l h
    have hnil : l = [] := List.length_eq_zero.mp (Nat.le_zero.mp h)
    subst hnil
    simp [chunksAux]
  | succ N ih =>
    intro l h
    cases l with
    | nil => simp [chunksAux]
    | cons c cs =>
      rw [chunksAux]
      simp only [List.flatten_cons, List.drop_succ_cons]
      rw [ih (cs.drop 79) (by
        simp only [List.length_drop]
        simp only [List.length_cons] at h
        omega)]
      have e : (c :: cs).drop 80 = cs.drop 79 := List.drop_succ_cons
      calc (c :: cs).take 80 ++ cs.drop 79
          = (c :: cs).take 80 ++ (c :: cs).drop 80 := by rw [e]
        _ = c :: cs := List.take_append_drop 80 (c :: cs)

theorem strJoin_aux : ∀ (ls : List (List Char)) (acc : List Char),
    List.foldl (fun a b => a ++ b) (String.mk acc) (ls.map String.mk) =
      String.mk (acc ++ ls.flatten) := by
  intro ls
  induction ls with
  | nil =>
    intro acc
    simp
  | cons x rest ih =>
    intro acc
    simp only [List.map_cons, List.foldl_cons, List.flatten_cons]
    have e : String.mk acc ++ String.mk x = String.mk (acc ++ x) := rfl
    rw [e, ih]
    simp [List.append_assoc]

theorem strJoin_map_mk (ls : List (List Char)) :
    String.join (ls.map String.mk) = String.mk ls.flatten := by
  have h := strJoin_aux ls []
  have e0 : ("" : String) = String.mk [] := rfl
  simp only [String.join, e0]
  simpa using h

/-- C6: for an over-threshold string with no error-like substring, the
tree renderer keeps exactly the first 100 characters and appends the
ellipsis marker, and the flat renderer hard-wraps the whole string into
ceil(length/80) lines of 80 characters (the wrapped pieces join back to
the original string). -/
theorem claim_C6_truncation (s : String) (hE : errorLike s = false) :
    (100 < s.length →
      format_simple_value (JVal.str s) =
        "[green]" ++ pyJsonDumpsStr (pyTake 100 s ++ "...") ++ "[/green]" ∧
      (pyTake 100 s).length = 100) ∧
    (80 < s.length →
      format_value (JVal.str s) =
        "[green]" ++ String.intercalate "\n" (pyChunks80 s) ++ "[/green]" ∧
      (pyChunks80 s).length = (s.length + 79) / 80 ∧
      String.join (pyChunks80 s) = s) := by
  have hlen : s.length = s.data.length := rfl
  constructor
  · intro h
    constructor
    · simp [format_simple_value, hE, h]
    · show (s.data.take 100).length = 100
      rw [List.length_take]
      omega
  · intro h
    refine ⟨by simp [format_value, hE, h], ?_, ?_⟩
    · show ((chunksAux 79 s.data).map String.mk).length = (s.length + 79) / 80
      rw [List.length_map, chunks80_length s.data.length s.data le_rfl, hlen]
    · show String.join ((chunksAux 79 s.data).map String.mk) = s
      rw [strJoin_map_mk, chunks80_join s.data.length s.data le_rfl]

set_option maxRecDepth 20000 in
/-- C6 witness: the 150-character sample is truncated to 100 characters
plus the marker by the tree renderer and wrapped into exactly two lines
by the flat renderer. -/
theorem claim_C6_truncation_witness :
    errorLike sampleLong = false ∧ 100 < sampleLong.length ∧
    format_simple_value (JVal.str sampleLong) =
      "[green]" ++ pyJsonDumpsStr (pyTake 100 sampleLong ++ "...") ++ "[/green]" ∧
    (pyChunks80 sampleLong).length = 2 := by
  have h := claim_C6_truncation sampleLong (by decide)
  refine ⟨by decide, by decide, (h.1 (by decide)).1, ?_⟩
  have h2 := (h.2 (by decide)).2.1
  rw [h2]
  decide

/-- C7: a string containing `error` or `invalid` case-insensitively is
classified error-like by both renderers before any length check and is
rendered in full, regardless of its length. -/
theorem claim_C7_errorlike_full (s : String) (h : errorLike s = true) :
    format_simple_value (JVal.str s) = "[red]" ++ pyJsonDumpsStr s ++ "[/red]" ∧
    format_value (JVal.str s) = "[red]" ++ pyJsonDumpsStr s ++ "[/red]" := by
  constructor
  · simp [format_simple_value, h]
  · simp [format_value, h]

/-- C7 witness: the string `Invalid token supplied` is classified
error-like and rendered in full by both renderers. -/
theorem claim_C7_errorlike_full_witness :
    errorLike "Invalid token supplied" = true ∧
    format_simple_value (JVal.str "Invalid token supplied") =
      "[red]\"Invalid token supplied\"[/red]" ∧
    format_value (JVal.str "Invalid token supplied") =
      "[red]\"Invalid token supplied\"[/red]" := by
  have h := claim_C7_errorlike_full "Invalid token supplied" (by decide)
  exact ⟨by decide, h.1.trans (by decide), h.2.trans (by decide)⟩

/-- C8: a non-empty mapping with no `error` or `message` key, at most
five entries and all-scalar values renders as a single inline
comma-joined line of `key: value` pairs in mapping order. -/
theorem claim_C8_inline_dict (d : List (String × JVal)) (h1 : d ≠ [])
    (h2 : pyLookup "error" d = Option.none) (h3 : pyLookup "message" d = Option.none)
    (h4 : d.length ≤ 5) (h5 : d.all (fun kv => isScalar kv.2) = true) :
    format_dict d 0 = some (String.intercalate ", "
      (d.map (fun kv => "[bold blue]" ++ kv.1 ++ "[/bold blue]: " ++ format_value kv.2))) := by
  rw [format_dict]
  have e1 : d.isEmpty = false := by
    cases d with
    | nil => exact absurd rfl h1
    | cons q rest => rfl
  have e0 : indentStr 0 = "" := rfl
  simp [e1, h2, h3, h4, h5, e0]

/-- C8 witness: the mapping x=1, y=true, z="ok" renders as the single
inline line with the boolean lowercased and the string quoted. -/
theorem claim_C8_inline_dict_witness :
    format_dict [("x", JVal.int 1), ("y", JVal.bool true), ("z", JVal.str "ok")] 0 =
      some ("[bold blue]x[/bold blue]: [bold cyan]1[/bold cyan], " ++
        "[bold blue]y[/bold blue]: [bold yellow]true[/bold yellow], " ++
        "[bold blue]z[/bold blue]: [green]\"ok\"[/green]") := by
  have h := claim_C8_inline_dict [("x", JVal.int 1), ("y", JVal.bool true), ("z", JVal.str "ok")]
    (by simp) rfl rfl (by decide) rfl
  exact h.trans (by decide)

end Comet
